import Mathlib

/-!
Verification development for the MyDHT11 sensor driver
(src/Firmware/DEMO_FINAL_PFC/MyDHT11.cpp and MyDHT11/MyDHT11.h).

The driver talks to the outside world through the Arduino primitives
digitalRead and micros.  We embed the environment as two streams:
pin readings indexed by the count of digitalRead calls made so far, and
clock values indexed by the count of micros calls made so far.  A pin
level is a Bool with HIGH = true and LOW = false.  The start-signal
actions (pinMode, digitalWrite, delay, delayMicroseconds) make no
digitalRead or micros call, so they are not observable in these streams.
Machine integers are modelled as Nat with explicit reductions: uint8_t
values carry a mod-256 truncation at assignment and unsigned long
(32-bit) subtraction is the wraparound difference usub32.
-/

/-- Digital pin level LOW of the Arduino API, modelled as false. -/
def LOW : Bool := false

/-- Digital pin level HIGH of the Arduino API, modelled as true. -/
def HIGH : Bool := true

/-- Pin direction modes passed to pinMode by the driver. -/
inductive PinModeKind where
  | input
  | output
  | inputPullup
deriving DecidableEq, Repr

/-- The external world seen by the driver: the value the k-th digitalRead
call returns and the value the k-th micros call returns. -/
structure Env where
  pin : Nat → Bool
  clock : Nat → Nat

/-- Modulus of the 32-bit unsigned long arithmetic used by micros. -/
def UINT32_MOD : Nat := 4294967296

/-- Wraparound difference a - b on 32-bit unsigned values, as in the
source expression micros() - t of type unsigned long. -/
def usub32 (a b : Nat) : Nat :=
  (a % UINT32_MOD + (UINT32_MOD - b % UINT32_MOD)) % UINT32_MOD

/-- Driver state: the fields _pin, _temperature and _humidity of class
MyDHT11 (MyDHT11.h lines 53-55).  _pin is a uint8_t, the two readings
are C ints, modelled as Int. -/
structure MyDHT11 where
  pin : Nat
  temperature : Int
  humidity : Int
deriving DecidableEq, Repr

/-- Constructor MyDHT11::MyDHT11(uint8_t pin): stores the pin (truncated
to uint8_t), zero-initializes both readings, and calls
pinMode(_pin, INPUT).  The pinMode call is returned as the list of pin
configuration actions performed. -/
def MyDHT11.construct (pin : Nat) : MyDHT11 × List (Nat × PinModeKind) :=
  ({ pin := pin % 256, temperature := 0, humidity := 0 },
   [(pin % 256, PinModeKind.input)])

/-- Accessor MyDHT11::getTemperature: returns _temperature. -/
def MyDHT11.getTemperature (s : MyDHT11) : Int := s.temperature

/-- Accessor MyDHT11::getHumidity: returns _humidity. -/
def MyDHT11.getHumidity (s : MyDHT11) : Int := s.humidity

/-- One countdown polling loop of read():
while (digitalRead(_pin) == level) begin if (loopCnt-- == 0) return false end.
Arguments: remaining budget c (the source variable loopCnt) and the index
k of the next digitalRead call.  Returns (exited-normally, next
digitalRead index, remaining budget).  A timeout (the source returns
false from read()) yields (false, _, 0); the budget value after the
post-decrement wraparound is never used by the source, so 0 stands for
it. -/
def waitWhile (env : Env) (level : Bool) : Nat → Nat → Bool × Nat × Nat
  | 0, k => if env.pin k = level then (false, k + 1, 0) else (true, k + 1, 0)
  | c + 1, k =>
    if env.pin k = level then waitWhile env level c (k + 1)
    else (true, k + 1, c + 1)

/-- The bit-classification and packing step of read():
if ((micros() - t) > 50) bits[idx] |= (1 << cnt).  The uint8_t element
assignment truncates mod 256. -/
def bitStep (bits : List Nat) (idx cnt elapsed : Nat) : List Nat :=
  if elapsed > 50 then
    bits.set idx ((bits.getD idx 0 ||| (1 <<< cnt)) % 256)
  else bits

/-- The 40-iteration decode loop of read() (MyDHT11.cpp lines 54-75):
per iteration loopCnt is reset to 10000, the wait-while-LOW loop and the
wait-while-HIGH loop share that countdown, t = micros() is taken between
them and micros() is read again after, the elapsed 32-bit difference
classifies the bit, and cnt/idx advance (cnt from 7 down to 0, then idx
steps to the next byte).  i counts the remaining iterations, k the next
digitalRead index, mc the next micros index.  Returns (completed, next
digitalRead index, next micros index, bits). -/
def bitsLoop (env : Env) (i k mc : Nat) (bits : List Nat) (cnt idx : Nat) :
    Bool × Nat × Nat × List Nat :=
  match i with
  | 0 => (true, k, mc, bits)
  | i' + 1 =>
    match waitWhile env LOW 10000 k with
    | (false, k1, _) => (false, k1, mc, bits)
    | (true, k1, r) =>
      let t := env.clock mc % UINT32_MOD
      match waitWhile env HIGH r k1 with
      | (false, k2, _) => (false, k2, mc + 1, bits)
      | (true, k2, _) =>
        let t2 := env.clock (mc + 1) % UINT32_MOD
        let bits2 := bitStep bits idx cnt (usub32 t2 t)
        if cnt = 0 then bitsLoop env i' k2 (mc + 2) bits2 7 (idx + 1)
        else bitsLoop env i' k2 (mc + 2) bits2 (cnt - 1) idx

/-- The frame-acquisition part of MyDHT11::read (MyDHT11.cpp lines
31-75): start signal (no digitalRead or micros calls), the
acknowledgment low phase with budget 10000, the acknowledgment high
phase with budget 30000, then the 40-bit decode loop started with
bits = 0,0,0,0,0, cnt = 7, idx = 0.  Returns (frame completed, number of
digitalRead calls consumed, decoded buffer). -/
def readAux (env : Env) : Bool × Nat × List Nat :=
  match waitWhile env LOW 10000 0 with
  | (false, k1, _) => (false, k1, [])
  | (true, k1, _) =>
    match waitWhile env HIGH 30000 k1 with
    | (false, k2, _) => (false, k2, [])
    | (true, k2, _) =>
      match bitsLoop env 40 k2 0 [0, 0, 0, 0, 0] 7 0 with
      | (ok, k3, _, bits) => (ok, k3, bits)

/-- MyDHT11::read: on any wait timeout return false with the state
untouched; otherwise store bits[0] into _humidity and bits[2] into
_temperature (MyDHT11.cpp lines 77-78, before the checksum check), then
validate bits[4] == ((bits[0] + bits[2]) & 0xFF); on mismatch print the
three diagnostic lines and return false.  Result: (return value, state
after the call, Serial output lines). -/
def MyDHT11.read (env : Env) (s : MyDHT11) : Bool × MyDHT11 × List String :=
  match readAux env with
  | (false, _, _) => (false, s, [])
  | (true, _, bits) =>
    let s2 := { s with humidity := (bits.getD 0 0 : Int),
                       temperature := (bits.getD 2 0 : Int) }
    if bits.getD 4 0 = (bits.getD 0 0 + bits.getD 2 0) &&& 255 then
      (true, s2, [])
    else
      (false, s2,
        ["Checksum validation failed.",
         "Calculated checksum: " ++ toString ((bits.getD 0 0 + bits.getD 2 0) &&& 255),
         "Received checksum: " ++ toString (bits.getD 4 0)])

/-- Loop of MyDHT11::waitForState (MyDHT11.cpp lines 120-128):
while (digitalRead(_pin) != state) begin if (micros() - startTime >
timeout) return false end; return true.  The source loop has no
iteration bound, so the embedding carries fuel; none means the fuel ran
out while the source would still be polling.  k is the next digitalRead
index, mc the next micros index. -/
def waitForStateLoop (env : Env) (state : Bool) (startTime timeoutv : Nat) :
    Nat → Nat → Nat → Option Bool
  | 0, _, _ => none
  | fuel + 1, k, mc =>
    if env.pin k = state then some true
    else if usub32 (env.clock mc) startTime > timeoutv then some false
    else waitForStateLoop env state startTime timeoutv fuel (k + 1) (mc + 1)

/-- MyDHT11::waitForState(uint8_t state, unsigned long timeout):
startTime = micros() (micros call 0), then the polling loop.  The method
reads only _pin and returns the instance state unchanged. -/
def MyDHT11.waitForState (env : Env) (s : MyDHT11) (state : Bool)
    (timeout : Nat) (fuel : Nat) : Option Bool × MyDHT11 :=
  (waitForStateLoop env state (env.clock 0 % UINT32_MOD)
    (timeout % UINT32_MOD) fuel 0 1, s)

/-- Test-harness pin signal for a full frame: the acknowledgment and
per-bit waits each terminate at their first poll (pin alternates HIGH at
even digitalRead indices, LOW at odd ones), and the clock makes the
elapsed high time of bit i equal 51 when b i is true and 0 otherwise
(micros call 2i starts bit i, call 2i+1 ends it). -/
def streamEnv (b : Nat → Bool) : Env :=
  { pin := fun k => k % 2 == 0,
    clock := fun mc => if mc % 2 == 1 && b (mc / 2) then 51 else 0 }

/-- Bit i (0-based, most-significant bit of byte 0 first) of the 40-bit
stream that transmits the given bytes, as in the spec scenarios. -/
def bitsOfBytes (bytes : List Nat) (i : Nat) : Bool :=
  (bytes.getD (i / 8) 0).testBit (7 - i % 8)

/-- Spec-side packing description, copied from the spec words rather
than from the source loop: stream bit j goes to buffer byte j / 8 at bit
position 7 - j % 8 (most-significant bit first, byte order
humidity-int, humidity-frac, temp-int, temp-frac, checksum), starting at
bit j and running for i bits. -/
def packBits (b : Nat → Bool) : Nat → Nat → List Nat → List Nat
  | _, 0, bits => bits
  | j, i + 1, bits =>
    packBits b (j + 1) i
      (if b j then
        bits.set (j / 8) ((bits.getD (j / 8) 0 ||| (1 <<< (7 - j % 8))) % 256)
      else bits)

/-- A driver instance as constructed on the given pin, before any read. -/
def initState (p : Nat) : MyDHT11 := (MyDHT11.construct p).1

/-- Operations a caller can perform on one driver instance. -/
inductive DriverOp where
  | readOp (env : Env)
  | getTemp
  | getHum

/-- Run a sequence of operations against a driver state.  The accessor
operations are const member functions and leave the state unchanged. -/
def runOps (s : MyDHT11) : List DriverOp → MyDHT11
  | [] => s
  | DriverOp.readOp env :: rest => runOps (MyDHT11.read env s).2.1 rest
  | DriverOp.getTemp :: rest => runOps s rest
  | DriverOp.getHum :: rest => runOps s rest

/-- Environment whose pin never leaves LOW: the acknowledgment low phase
of read() must time out. -/
def envStuckLow : Env := { pin := fun _ => false, clock := fun _ => 0 }

/-- Environment whose pin never leaves HIGH: the acknowledgment high
phase of read() must time out. -/
def envStuckHigh : Env := { pin := fun _ => true, clock := fun _ => 0 }

/-- Both cached readings lie in the 8-bit unsigned range 0..255. -/
def readingsInRange (s : MyDHT11) : Prop :=
  0 ≤ s.temperature ∧ s.temperature ≤ 255 ∧ 0 ≤ s.humidity ∧ s.humidity ≤ 255

/- Helper lemmas shared by the claim theorems. -/

/-- A countdown wait whose pin level differs from the waited-on level at
the first poll exits at once with the budget untouched. -/
theorem waitWhile_exit (env : Env) (level : Bool) (c k : Nat)
    (h : env.pin k ≠ level) : waitWhile env level c k = (true, k + 1, c) := by
  cases c <;> simp [waitWhile, h]

/-- A countdown wait on a pin stuck at the waited-on level times out
after consuming its whole budget. -/
theorem waitWhile_all_level (env : Env) (level : Bool)
    (hall : ∀ j, env.pin j = level) :
    ∀ c k, waitWhile env level c k = (false, k + c + 1, 0) := by
  intro c
  induction c with
  | zero => intro k; simp [waitWhile, hall k]
  | succ n ih =>
    intro k
    rw [waitWhile, if_pos (hall k), ih (k + 1)]
    have : k + 1 + n + 1 = k + (n + 1) + 1 := by omega
    rw [this]

/-- Accounting identity of the countdown wait: next poll index plus the
remaining budget always equal the start index plus budget plus one. -/
theorem waitWhile_budget (env : Env) (level : Bool) :
    ∀ c k, (waitWhile env level c k).2.1 + (waitWhile env level c k).2.2
      = k + c + 1 := by
  intro c
  induction c with
  | zero => intro k; rw [waitWhile]; split <;> simp
  | succ n ih =>
    intro k
    rw [waitWhile]
    split
    · rw [ih (k + 1)]; omega
    · simp; omega

/-- On any timeout inside the frame acquisition, read() returns false
with the instance state unchanged and no diagnostic output. -/
theorem read_of_readAux_false (env : Env) (s : MyDHT11)
    (h : (readAux env).1 = false) : MyDHT11.read env s = (false, s, []) := by
  rcases hr : readAux env with ⟨b, k, bits⟩
  rw [hr] at h
  simp only at h
  subst h
  simp [MyDHT11.read, hr]


/-- Claim C8: a freshly constructed driver stores the pin (as uint8_t), issues
exactly one pin configuration, setting that pin to digital input, and
both accessors return 0 before any read. -/
theorem construct_defaults (p : Nat) :
    (MyDHT11.construct p).1.pin = p % 256 ∧
    (MyDHT11.construct p).2 = [((MyDHT11.construct p).1.pin, PinModeKind.input)] ∧
    (MyDHT11.construct p).1.getTemperature = 0 ∧
    (MyDHT11.construct p).1.getHumidity = 0 :=
  ⟨rfl, rfl, rfl, rfl⟩

/-- Claim C1: evaluation at the failing input.  A full frame 60,0,25,0,99 has
checksum mismatch (85 vs 99), read() returns false, yet the cached
readings change from their prior values 0/0 to 60/25, because the
source stores bits 0 and 2 before validating the checksum. -/
theorem checksum_mismatch_mutates_readings :
    (MyDHT11.read (streamEnv (bitsOfBytes [60, 0, 25, 0, 99])) (initState 2)).1 = false ∧
    (initState 2).getHumidity = 0 ∧
    (initState 2).getTemperature = 0 ∧
    (MyDHT11.read (streamEnv (bitsOfBytes [60, 0, 25, 0, 99])) (initState 2)).2.1.getHumidity = 60 ∧
    (MyDHT11.read (streamEnv (bitsOfBytes [60, 0, 25, 0, 99])) (initState 2)).2.1.getTemperature = 25 := by
  decide

/-- Claim C2: whenever the frame acquisition completes, the call stores buffer
byte 0 into the humidity field and buffer byte 2 into the temperature
field, whether or not the checksum check then passes. -/
theorem read_frame_always_stores_bytes (env : Env) (s : MyDHT11)
    (h : (readAux env).1 = true) :
    (MyDHT11.read env s).2.1.humidity = ((readAux env).2.2.getD 0 0 : Int) ∧
    (MyDHT11.read env s).2.1.temperature = ((readAux env).2.2.getD 2 0 : Int) := by
  rcases hr : readAux env with ⟨b, k, bits⟩
  rw [hr] at h
  simp only at h
  subst h
  simp only [MyDHT11.read, hr]
  split
  · exact ⟨rfl, rfl⟩
  · exact ⟨rfl, rfl⟩

/-- C2 witness: on the checksum-mismatch frame 60,0,25,0,99 the stored
readings after the call are byte 0 = 60 and byte 2 = 25. -/
theorem read_frame_always_stores_bytes_witness :
    (readAux (streamEnv (bitsOfBytes [60, 0, 25, 0, 99]))).1 = true ∧
    (MyDHT11.read (streamEnv (bitsOfBytes [60, 0, 25, 0, 99])) (initState 2)).2.1.humidity = 60 ∧
    (MyDHT11.read (streamEnv (bitsOfBytes [60, 0, 25, 0, 99])) (initState 2)).2.1.temperature = 25 := by
  have h := read_frame_always_stores_bytes
    (streamEnv (bitsOfBytes [60, 0, 25, 0, 99])) (initState 2) (by decide)
  exact ⟨by decide, h.1.trans (by decide), h.2.trans (by decide)⟩

/-- Claim C3: a read that fails inside the frame acquisition (acknowledgment
or per-bit timeout) returns false, leaves the stored readings exactly as
before the call, and prints nothing. -/
theorem read_timeout_preserves_state (env : Env) (s : MyDHT11)
    (h : (readAux env).1 = false) : MyDHT11.read env s = (false, s, []) :=
  read_of_readAux_false env s h

/-- C3 witness: a pin that never leaves LOW makes the acknowledgment low
phase time out; read returns false and the state is untouched. -/
theorem read_timeout_preserves_state_witness :
    (readAux envStuckLow).1 = false ∧
    MyDHT11.read envStuckLow (initState 2) = (false, initState 2, []) := by
  have hw : waitWhile envStuckLow LOW 10000 0 = (false, 10001, 0) := by
    have := waitWhile_all_level envStuckLow LOW (fun j => rfl) 10000 0
    simpa using this
  have hfalse : (readAux envStuckLow).1 = false := by
    simp [readAux, hw]
  exact ⟨hfalse, read_timeout_preserves_state envStuckLow (initState 2) hfalse⟩

/-- The decode loop consumes at most 10002 digitalRead calls per
remaining iteration: a 10000 budget shared between the two waits of one
bit can serve at most 10001 polls, plus the poll on which each wait
exits. -/
theorem bitsLoop_poll_bound (env : Env) :
    ∀ i k mc bits cnt idx,
      (bitsLoop env i k mc bits cnt idx).2.1 ≤ k + i * 10002 := by
  intro i
  induction i with
  | zero => intro k mc bits cnt idx; simp [bitsLoop]
  | succ n ih =>
    intro k mc bits cnt idx
    rw [bitsLoop]
    have h1 := waitWhile_budget env LOW 10000 k
    rcases hw1 : waitWhile env LOW 10000 k with ⟨b1, k1, r1⟩
    rw [hw1] at h1
    simp only at h1
    cases b1
    · simp only
      omega
    · simp only
      have h2 := waitWhile_budget env HIGH r1 k1
      rcases hw2 : waitWhile env HIGH r1 k1 with ⟨b2, k2, r2⟩
      rw [hw2] at h2
      simp only at h2
      cases b2
      · simp only
        omega
      · simp only
        split
        · have := ih k2 (mc + 2) (bitStep bits idx cnt
            (usub32 (env.clock (mc + 1) % UINT32_MOD) (env.clock mc % UINT32_MOD))) 7 (idx + 1)
          omega
        · have := ih k2 (mc + 2) (bitStep bits idx cnt
            (usub32 (env.clock (mc + 1) % UINT32_MOD) (env.clock mc % UINT32_MOD))) (cnt - 1) idx
          omega

/-- Claim C7: read() terminates on every environment: the whole frame
acquisition consumes at most 440082 digitalRead calls (10001 for the
acknowledgment low budget of 10000, 30001 for the high budget of 30000,
and 10002 for each of the 40 bits, whose 10000 budget is shared between
the low-wait and high-wait of that bit), and whenever a budget is
exhausted read() returns false. -/
theorem read_poll_bound (env : Env) :
    (readAux env).2.1 ≤ 440082 ∧
    (∀ s : MyDHT11, (readAux env).1 = false →
      MyDHT11.read env s = (false, s, [])) := by
  refine ⟨?_, fun s h => read_of_readAux_false env s h⟩
  rw [readAux]
  have h1 := waitWhile_budget env LOW 10000 0
  rcases hw1 : waitWhile env LOW 10000 0 with ⟨b1, k1, r1⟩
  rw [hw1] at h1
  simp only at h1
  cases b1
  · simp only
    omega
  · simp only
    have h2 := waitWhile_budget env HIGH 30000 k1
    rcases hw2 : waitWhile env HIGH 30000 k1 with ⟨b2, k2, r2⟩
    rw [hw2] at h2
    simp only at h2
    cases b2
    · simp only
      omega
    · simp only
      have h3 := bitsLoop_poll_bound env 40 k2 0 [0, 0, 0, 0, 0] 7 0
      rcases hw3 : bitsLoop env 40 k2 0 [0, 0, 0, 0, 0] 7 0 with ⟨ok, k3, mc3, bits⟩
      rw [hw3] at h3
      simp only at h3 ⊢
      omega

/-- C7 witness: a pin stuck HIGH exhausts the acknowledgment high
budget; the poll bound holds and read returns false unchanged. -/
theorem read_poll_bound_witness :
    (readAux envStuckHigh).2.1 ≤ 440082 ∧
    MyDHT11.read envStuckHigh (initState 5) = (false, initState 5, []) := by
  have hlow : waitWhile envStuckHigh LOW 10000 0 = (true, 1, 10000) :=
    waitWhile_exit envStuckHigh LOW 10000 0 (by decide)
  have hhigh : waitWhile envStuckHigh HIGH 30000 1 = (false, 30002, 0) := by
    have := waitWhile_all_level envStuckHigh HIGH (fun j => rfl) 30000 1
    simpa using this
  have hfalse : (readAux envStuckHigh).1 = false := by
    simp [readAux, hlow, hhigh]
  exact ⟨(read_poll_bound envStuckHigh).1,
    (read_poll_bound envStuckHigh).2 (initState 5) hfalse⟩

/-- Claim C4: when the frame acquisition completes, read() returns true
exactly when buffer byte 4 equals the 8-bit sum of bytes 0 and 2, and on
success the accessors afterwards return byte 0 (humidity) and byte 2
(temperature). -/
theorem read_success_iff_checksum (env : Env) (s : MyDHT11)
    (h : (readAux env).1 = true) :
    ((MyDHT11.read env s).1 = true ↔
      (readAux env).2.2.getD 4 0 =
        ((readAux env).2.2.getD 0 0 + (readAux env).2.2.getD 2 0) &&& 255) ∧
    ((MyDHT11.read env s).1 = true →
      (MyDHT11.read env s).2.1.getHumidity = ((readAux env).2.2.getD 0 0 : Int) ∧
      (MyDHT11.read env s).2.1.getTemperature = ((readAux env).2.2.getD 2 0 : Int)) := by
  rcases hr : readAux env with ⟨b, k, bits⟩
  rw [hr] at h
  simp only at h
  subst h
  simp only [MyDHT11.read, hr]
  split
  · next hck => exact ⟨⟨fun _ => hck, fun _ => rfl⟩, fun _ => ⟨rfl, rfl⟩⟩
  · next hck =>
      exact ⟨⟨fun h' => (Bool.false_ne_true h').elim, fun hcond => (hck hcond).elim⟩,
        fun h' => (Bool.false_ne_true h').elim⟩

/-- C4 witness: the frame 60,0,25,0,85 has a matching checksum, read()
succeeds and afterwards humidity reads 60 and temperature 25. -/
theorem read_success_iff_checksum_witness :
    (readAux (streamEnv (bitsOfBytes [60, 0, 25, 0, 85]))).1 = true ∧
    (MyDHT11.read (streamEnv (bitsOfBytes [60, 0, 25, 0, 85])) (initState 2)).1 = true ∧
    (MyDHT11.read (streamEnv (bitsOfBytes [60, 0, 25, 0, 85])) (initState 2)).2.1.getHumidity = 60 ∧
    (MyDHT11.read (streamEnv (bitsOfBytes [60, 0, 25, 0, 85])) (initState 2)).2.1.getTemperature = 25 := by
  have h := read_success_iff_checksum
    (streamEnv (bitsOfBytes [60, 0, 25, 0, 85])) (initState 2) (by decide)
  have hs := h.1.mpr (by decide)
  have h2 := h.2 hs
  exact ⟨by decide, hs, h2.1.trans (by decide), h2.2.trans (by decide)⟩

/-- Claim C5: the bit classification of the decode loop uses a strict
greater-than-50 comparison on the elapsed high time: any elapsed value
up to and including 50 leaves the buffer untouched (the bit decodes as
0), while an elapsed value of 51 sets the current bit (it decodes
as 1). -/
theorem bit_threshold_strict (bits : List Nat) (idx cnt e : Nat)
    (hb : bits.getD idx 0 < 256) (hc : cnt ≤ 7) (hlen : idx < bits.length)
    (he : e ≤ 50) :
    bitStep bits idx cnt e = bits ∧
    ((bitStep bits idx cnt 51).getD idx 0).testBit cnt = true := by
  constructor
  · rw [bitStep, if_neg (by omega)]
  · rw [bitStep, if_pos (by omega)]
    have hv : (bits.getD idx 0 ||| (1 <<< cnt)) % 256
        = bits.getD idx 0 ||| (1 <<< cnt) := by
      apply Nat.mod_eq_of_lt
      have hsh : (1 <<< cnt) < 256 := by
        rw [Nat.shiftLeft_eq, one_mul]
        calc (2 : Nat) ^ cnt ≤ 2 ^ 7 := Nat.pow_le_pow_right (by norm_num) hc
        _ < 256 := by norm_num
      exact Nat.or_lt_two_pow (n := 8) hb hsh
    have hget : ((bits.set idx ((bits.getD idx 0 ||| (1 <<< cnt)) % 256)).getD idx 0)
        = (bits.getD idx 0 ||| (1 <<< cnt)) % 256 := by
      rw [List.getD_eq_getElem?_getD, List.getElem?_set_self
        (by simpa using hlen)]
      rfl
    rw [hget, hv, Nat.testBit_or, Nat.shiftLeft_eq, one_mul,
      Nat.testBit_two_pow_self, Bool.or_true]

/-- C5 witness: in an all-zero buffer at byte 0, bit position 7, an
elapsed time of 50 leaves the bit 0 and an elapsed time of 51 sets
it. -/
theorem bit_threshold_strict_witness :
    bitStep [0, 0, 0, 0, 0] 0 7 50 = [0, 0, 0, 0, 0] ∧
    ((bitStep [0, 0, 0, 0, 0] 0 7 51).getD 0 0).testBit 7 = true :=
  bit_threshold_strict [0, 0, 0, 0, 0] 0 7 50
    (by decide) (by decide) (by decide) (by decide)

/-- The packing step keeps every buffer element below 256, since the
uint8_t element assignment truncates mod 256. -/
theorem bitStep_mem_lt (bits : List Nat) (idx cnt e : Nat)
    (h : ∀ x ∈ bits, x < 256) : ∀ x ∈ bitStep bits idx cnt e, x < 256 := by
  intro x hx
  rw [bitStep] at hx
  split at hx
  · rcases List.mem_or_eq_of_mem_set hx with h1 | h1
    · exact h x h1
    · rw [h1]; exact Nat.mod_lt _ (by norm_num)
  · exact h x hx

/-- The decode loop keeps every buffer element below 256. -/
theorem bitsLoop_mem_lt (env : Env) :
    ∀ i k mc bits cnt idx, (∀ x ∈ bits, x < 256) →
      ∀ x ∈ (bitsLoop env i k mc bits cnt idx).2.2.2, x < 256 := by
  intro i
  induction i with
  | zero => intro k mc bits cnt idx h; simpa [bitsLoop] using h
  | succ n ih =>
    intro k mc bits cnt idx h
    rw [bitsLoop]
    rcases hw1 : waitWhile env LOW 10000 k with ⟨b1, k1, r1⟩
    cases b1
    · simpa using h
    · simp only
      rcases hw2 : waitWhile env HIGH r1 k1 with ⟨b2, k2, r2⟩
      cases b2
      · simpa using h
      · simp only
        split
        · exact ih k2 (mc + 2) _ 7 (idx + 1) (bitStep_mem_lt bits idx cnt _ h)
        · exact ih k2 (mc + 2) _ (cnt - 1) idx (bitStep_mem_lt bits idx cnt _ h)

/-- Every element of the buffer produced by the frame acquisition is
below 256. -/
theorem readAux_mem_lt (env : Env) : ∀ x ∈ (readAux env).2.2, x < 256 := by
  rw [readAux]
  rcases hw1 : waitWhile env LOW 10000 0 with ⟨b1, k1, r1⟩
  cases b1
  · simp
  · simp only
    rcases hw2 : waitWhile env HIGH 30000 k1 with ⟨b2, k2, r2⟩
    cases b2
    · simp
    · simp only
      have h := bitsLoop_mem_lt env 40 k2 0 [0, 0, 0, 0, 0] 7 0 (by decide)
      rcases hw3 : bitsLoop env 40 k2 0 [0, 0, 0, 0, 0] 7 0 with ⟨ok, k3, mc3, bits⟩
      rw [hw3] at h
      simpa using h

/-- Reading a list whose elements are all below 256 with default 0
yields a value below 256. -/
theorem getD_lt (l : List Nat) (n : Nat) (h : ∀ x ∈ l, x < 256) :
    l.getD n 0 < 256 := by
  rw [List.getD_eq_getElem?_getD]
  rcases hl : l[n]? with _ | x
  · simp
  · have hx : x ∈ l := List.getElem?_mem hl
    simpa using h x hx

/-- One read() call keeps both cached readings inside 0..255. -/
theorem read_preserves_range (env : Env) (s : MyDHT11)
    (h : readingsInRange s) : readingsInRange (MyDHT11.read env s).2.1 := by
  have hmem := readAux_mem_lt env
  rcases hr : readAux env with ⟨b, k, bits⟩
  rw [hr] at hmem
  simp only at hmem
  simp only [MyDHT11.read, hr]
  cases b
  · exact h
  · have h0 : bits.getD 0 0 < 256 := getD_lt bits 0 hmem
    have h2 : bits.getD 2 0 < 256 := getD_lt bits 2 hmem
    simp only
    split
    · refine ⟨by positivity, ?_, by positivity, ?_⟩ <;> · simp only; omega
    · refine ⟨by positivity, ?_, by positivity, ?_⟩ <;> · simp only; omega

/-- Any operation sequence keeps both cached readings inside 0..255. -/
theorem runOps_preserves_range :
    ∀ (ops : List DriverOp) (s : MyDHT11), readingsInRange s →
      readingsInRange (runOps s ops) := by
  intro ops
  induction ops with
  | nil => intro s h; simpa [runOps] using h
  | cons op rest ih =>
    intro s h
    cases op with
    | readOp env => exact ih _ (read_preserves_range env s h)
    | getTemp => exact ih _ h
    | getHum => exact ih _ h

/-- Claim C9: after any sequence of construction, read and accessor calls the
stored temperature and humidity always lie between 0 and 255: they are
only ever 0 from construction or an 8-bit byte of the decode buffer. -/
theorem readings_range_invariant (p : Nat) (ops : List DriverOp) :
    readingsInRange (runOps (initState p) ops) := by
  apply runOps_preserves_range
  refine ⟨?_, ?_, ?_, ?_⟩ <;> simp [initState, MyDHT11.construct, readingsInRange]

/-- waitForState loop, success case: if the pin shows the desired level
at poll j and every earlier poll saw the wrong level while the elapsed
time was still within the timeout, the loop reports true. -/
theorem waitForStateLoop_true (env : Env) (state : Bool)
    (startTime timeoutv : Nat) :
    ∀ j fuel k mc, j < fuel → env.pin (k + j) = state →
      (∀ i < j, env.pin (k + i) ≠ state ∧
        usub32 (env.clock (mc + i)) startTime ≤ timeoutv) →
      waitForStateLoop env state startTime timeoutv fuel k mc = some true := by
  intro j
  induction j with
  | zero =>
    intro fuel k mc hf hp _
    match fuel, hf with
    | f + 1, _ =>
      rw [waitForStateLoop, if_pos (by simpa using hp)]
  | succ n ih =>
    intro fuel k mc hf hp hall
    match fuel, hf with
    | f + 1, _ =>
      have h0 := hall 0 (Nat.succ_pos n)
      rw [waitForStateLoop, if_neg (by simpa using h0.1),
        if_neg (by simpa using Nat.not_lt.mpr h0.2)]
      refine ih f (k + 1) (mc + 1) (by omega) ?_ ?_
      · have e : k + 1 + n = k + (n + 1) := by omega
        rw [e]; exact hp
      · intro i hi
        have hx := hall (i + 1) (by omega)
        have e1 : k + 1 + i = k + (i + 1) := by omega
        have e2 : mc + 1 + i = mc + (i + 1) := by omega
        exact ⟨by rw [e1]; exact hx.1, by rw [e2]; exact hx.2⟩

/-- waitForState loop, timeout case: if the pin never shows the desired
level through poll j and the elapsed time first exceeds the timeout at
the check after poll j, the loop reports false. -/
theorem waitForStateLoop_false (env : Env) (state : Bool)
    (startTime timeoutv : Nat) :
    ∀ j fuel k mc, j < fuel →
      (∀ i, i ≤ j → env.pin (k + i) ≠ state) →
      (∀ i < j, usub32 (env.clock (mc + i)) startTime ≤ timeoutv) →
      usub32 (env.clock (mc + j)) startTime > timeoutv →
      waitForStateLoop env state startTime timeoutv fuel k mc = some false := by
  intro j
  induction j with
  | zero =>
    intro fuel k mc hf hpin _ hto
    match fuel, hf with
    | f + 1, _ =>
      rw [waitForStateLoop, if_neg (by simpa using hpin 0 (le_refl 0)),
        if_pos (by simpa using hto)]
  | succ n ih =>
    intro fuel k mc hf hpin hok hto
    match fuel, hf with
    | f + 1, _ =>
      rw [waitForStateLoop, if_neg (by simpa using hpin 0 (Nat.zero_le _)),
        if_neg (by simpa using Nat.not_lt.mpr (hok 0 (Nat.succ_pos n)))]
      refine ih f (k + 1) (mc + 1) (by omega) ?_ ?_ ?_
      · intro i hi
        have e : k + 1 + i = k + (i + 1) := by omega
        rw [e]; exact hpin (i + 1) (by omega)
      · intro i hi
        have e : mc + 1 + i = mc + (i + 1) := by omega
        rw [e]; exact hok (i + 1) (by omega)
      · have e : mc + 1 + n = mc + (n + 1) := by omega
        rw [e]; exact hto

/-- Claim C10: waitForState returns true as soon as a poll reports the
desired level, returns false once the elapsed microseconds since the
call began (32-bit wraparound difference against the micros value taken
at entry) exceed the timeout without the level being observed, and in
both cases leaves the stored readings unchanged. -/
theorem waitForState_spec (env : Env) (s : MyDHT11) (lvl : Bool)
    (timeout fuel j : Nat) :
    (j < fuel → env.pin j = lvl →
      (∀ i < j, env.pin i ≠ lvl ∧
        usub32 (env.clock (1 + i)) (env.clock 0 % UINT32_MOD) ≤ timeout % UINT32_MOD) →
      MyDHT11.waitForState env s lvl timeout fuel = (some true, s)) ∧
    (j < fuel → (∀ i, i ≤ j → env.pin i ≠ lvl) →
      (∀ i < j, usub32 (env.clock (1 + i)) (env.clock 0 % UINT32_MOD) ≤ timeout % UINT32_MOD) →
      usub32 (env.clock (1 + j)) (env.clock 0 % UINT32_MOD) > timeout % UINT32_MOD →
      MyDHT11.waitForState env s lvl timeout fuel = (some false, s)) := by
  constructor
  · intro hf hp hall
    have hloop : waitForStateLoop env lvl (env.clock 0 % UINT32_MOD)
        (timeout % UINT32_MOD) fuel 0 1 = some true := by
      refine waitForStateLoop_true env lvl _ _ j fuel 0 1 hf (by simpa using hp) ?_
      intro i hi
      have hx := hall i hi
      exact ⟨by simpa using hx.1, hx.2⟩
    simp [MyDHT11.waitForState, hloop]
  · intro hf hpin hok hto
    have hloop : waitForStateLoop env lvl (env.clock 0 % UINT32_MOD)
        (timeout % UINT32_MOD) fuel 0 1 = some false := by
      refine waitForStateLoop_false env lvl _ _ j fuel 0 1 hf ?_ hok hto
      intro i hi
      simpa using hpin i hi
    simp [MyDHT11.waitForState, hloop]

/-- C10 witness: a pin already at the desired level makes waitForState
return true at the first poll, with the state unchanged. -/
theorem waitForState_spec_witness :
    MyDHT11.waitForState envStuckHigh (initState 3) HIGH 5 1
      = (some true, initState 3) :=
  (waitForState_spec envStuckHigh (initState 3) HIGH 5 1 0).1
    (by decide) (by decide) (fun i hi => absurd hi (Nat.not_lt_zero i))

/-- On the harness signal, the packing step of the decode loop agrees
with the spec-side conditional set at byte j / 8, bit 7 - j % 8. -/
theorem bitStep_stream (b : Nat → Bool) (bits : List Nat) (j : Nat) :
    bitStep bits (j / 8) (7 - j % 8) (if b j then 51 else 0) =
      (if b j then
        bits.set (j / 8) ((bits.getD (j / 8) 0 ||| (1 <<< (7 - j % 8))) % 256)
      else bits) := by
  cases hb : b j <;> simp [bitStep, hb]

/-- One iteration of the decode loop on the harness signal: both waits
exit at their first poll and the elapsed time is 51 when the current
stream bit is set, 0 otherwise. -/
theorem bitsLoop_streamEnv_step (b : Nat → Bool) (i j : Nat)
    (bits : List Nat) (cnt idx : Nat) :
    bitsLoop (streamEnv b) (i + 1) (2 + 2 * j) (2 * j) bits cnt idx =
      bitsLoop (streamEnv b) i (2 + 2 * j + 1 + 1) (2 * j + 2)
        (bitStep bits idx cnt (if b j then 51 else 0))
        (if cnt = 0 then 7 else cnt - 1) (if cnt = 0 then idx + 1 else idx) := by
  have hlow : (streamEnv b).pin (2 + 2 * j) ≠ LOW := by
    have e : (2 + 2 * j) % 2 = 0 := by omega
    simp [streamEnv, LOW, e]
  have hhigh : (streamEnv b).pin (2 + 2 * j + 1) ≠ HIGH := by
    have e : (2 + 2 * j + 1) % 2 = 1 := by omega
    simp [streamEnv, HIGH, e]
  have hw1 : waitWhile (streamEnv b) LOW 10000 (2 + 2 * j)
      = (true, 2 + 2 * j + 1, 10000) := waitWhile_exit _ _ _ _ hlow
  have hw2 : waitWhile (streamEnv b) HIGH 10000 (2 + 2 * j + 1)
      = (true, 2 + 2 * j + 1 + 1, 10000) := waitWhile_exit _ _ _ _ hhigh
  have h0 : (streamEnv b).clock (2 * j) = 0 := by
    have e : (2 * j) % 2 = 0 := by omega
    simp [streamEnv, e]
  have h1 : (streamEnv b).clock (2 * j + 1) = if b j then 51 else 0 := by
    have e1 : (2 * j + 1) % 2 = 1 := by omega
    have e2 : (2 * j + 1) / 2 = j := by omega
    simp [streamEnv, e1, e2]
  have hclock : usub32 ((streamEnv b).clock (2 * j + 1) % UINT32_MOD)
      ((streamEnv b).clock (2 * j) % UINT32_MOD) = if b j then 51 else 0 := by
    rw [h0, h1]
    cases hb : b j
    · simp; decide
    · simp; decide
  rw [bitsLoop]
  rw [hw1]
  simp only
  rw [hw2]
  simp only
  rw [hclock]
  by_cases hc : cnt = 0 <;> simp [hc]

/-- The decode loop on the harness signal computes exactly the spec-side
MSB-first packing: starting at stream bit j with cnt = 7 - j % 8 and
idx = j / 8, running i more bits lands at bit j + i with the buffer
updated by packBits. -/
theorem bitsLoop_streamEnv (b : Nat → Bool) :
    ∀ i j bits,
      bitsLoop (streamEnv b) i (2 + 2 * j) (2 * j) bits (7 - j % 8) (j / 8) =
        (true, 2 + 2 * (j + i), 2 * (j + i), packBits b j i bits) := by
  intro i
  induction i with
  | zero => intro j bits; simp [bitsLoop, packBits]
  | succ n ih =>
    intro j bits
    rw [bitsLoop_streamEnv_step, bitStep_stream]
    simp only [packBits]
    by_cases h8 : j % 8 = 7
    · have hc0 : 7 - j % 8 = 0 := by omega
      rw [hc0]
      simp only [reduceIte]
      have e1 : 2 + 2 * j + 1 + 1 = 2 + 2 * (j + 1) := by ring
      have e2 : 2 * j + 2 = 2 * (j + 1) := by ring
      have e5 : j + (n + 1) = (j + 1) + n := by omega
      have e3 : (7 : Nat) = 7 - (j + 1) % 8 := by omega
      have e4 : j / 8 + 1 = (j + 1) / 8 := by omega
      rw [e1, e2, e5, e3, e4]
      exact ih (j + 1) _
    · have hcne : ¬(7 - j % 8 = 0) := by omega
      rw [if_neg hcne, if_neg hcne]
      have e1 : 2 + 2 * j + 1 + 1 = 2 + 2 * (j + 1) := by ring
      have e2 : 2 * j + 2 = 2 * (j + 1) := by ring
      have e5 : j + (n + 1) = (j + 1) + n := by omega
      have e3 : 7 - j % 8 - 1 = 7 - (j + 1) % 8 := by omega
      have e4 : j / 8 = (j + 1) / 8 := by omega
      rw [e1, e2, e5, e3, e4]
      exact ih (j + 1) _

/-- Claim C6: the 40 decoded bits are packed most-significant-bit first into
the 5 buffer bytes in order humidity-int, humidity-frac, temp-int,
temp-frac, checksum: for every bit stream the code's counter-based loop
produces exactly the spec-side packing (stream bit j goes to byte j / 8,
bit position 7 - j % 8), and a stream encoding bytes 1,0,0,0,1 yields a
successful read with humidity 1 and temperature 0. -/
theorem bits_packed_msb_first :
    (∀ b : Nat → Bool,
      readAux (streamEnv b) = (true, 82, packBits b 0 40 [0, 0, 0, 0, 0])) ∧
    ((MyDHT11.read (streamEnv (bitsOfBytes [1, 0, 0, 0, 1])) (initState 2)).1 = true ∧
     (MyDHT11.read (streamEnv (bitsOfBytes [1, 0, 0, 0, 1])) (initState 2)).2.1.getHumidity = 1 ∧
     (MyDHT11.read (streamEnv (bitsOfBytes [1, 0, 0, 0, 1])) (initState 2)).2.1.getTemperature = 0) := by
  constructor
  · intro b
    have hw1 : waitWhile (streamEnv b) LOW 10000 0 = (true, 1, 10000) :=
      waitWhile_exit _ _ _ _ (by simp [streamEnv, LOW])
    have hw2 : waitWhile (streamEnv b) HIGH 30000 1 = (true, 2, 30000) :=
      waitWhile_exit _ _ _ _ (by simp [streamEnv, HIGH])
    have hb := bitsLoop_streamEnv b 40 0 [0, 0, 0, 0, 0]
    norm_num at hb
    simp [readAux, hw1, hw2, hb]
  · exact ⟨by decide, by decide, by decide⟩
